import Mathlib

/-!
Verification of the icon-ibc-balance-tracker repository (Go).

The numeric core of the tracker converts an integer smallest-unit balance to
a display value with `toDecimalUnit` (Go `math/big.Float` arithmetic) and
compares it against a threshold parsed from the configuration with
`big.Float.SetString`.  Go `big.Float` is binary floating point with an
explicit mantissa precision and round-to-nearest-even as the default mode:
* `SetInt x` gives precision `max(x.BitLen(), 64)` (exact),
* `Quo x y` on a fresh float rounds the exact quotient to precision
  `max(prec x, prec y)`,
* `SetString s` on a fresh float rounds the exact decimal value of `s`
  to precision 64.
The embedding represents a nonnegative `big.Float` by a mantissa/exponent
pair (`GoFloat`, value `mant * 2 ^ exp`) and models the rounding steps
explicitly; `floatVal` interprets a pair as the exact rational it denotes.
-/

namespace BalanceTracker

/-- Bit length of a natural number computed with a structural fuel argument
(the fuel `n` itself suffices since the value halves each step).  Matches
Go `big.Int.BitLen`: `bitlen 0 = 0`, `bitlen 10 = 4`. -/
def bitlenAux : Nat → Nat → Nat
  | _, 0 => 0
  | 0, _ => 0
  | fuel + 1, n + 1 => bitlenAux fuel ((n + 1) / 2) + 1

/-- Bit length of a natural number (Go `big.Int.BitLen`). -/
def bitlen (n : Nat) : Nat := bitlenAux n n

/-- Binary exponent of the positive rational `a / b`: the unique `e` with
`2 ^ e ≤ a / b < 2 ^ (e + 1)`.  The candidate `s = bitlen a - bitlen b` is
off by at most one, and a single comparison settles it.  (For `a = 0` the
value is irrelevant to the rounding functions below, which return a zero
mantissa.) -/
def ratLog2 (a b : Nat) : Int :=
  let s : Int := (bitlen a : Int) - (bitlen b : Int)
  if 0 ≤ s then (if b * 2 ^ s.toNat ≤ a then s else s - 1)
  else (if b ≤ a * 2 ^ (-s).toNat then s else s - 1)

/-- Round the quotient `num / den` of naturals to the nearest integer,
ties to even — the default `big.Float` rounding of the final mantissa. -/
def rndNearEven (num den : Nat) : Nat :=
  let q := num / den
  let r := num % den
  if 2 * r < den then q
  else if den < 2 * r then q + 1
  else if q % 2 = 0 then q else q + 1

/-- A nonnegative `big.Float` value: mantissa times `2 ^ exp`.  The pair is
the amount of information `big.Float` keeps after rounding; comparisons in
the code (`Cmp`) are by denoted value. -/
structure GoFloat where
  mant : Nat
  exp : Int
deriving DecidableEq, Repr

/-- Exact rational value denoted by a `GoFloat`. -/
def floatVal (f : GoFloat) : ℚ := (f.mant : ℚ) * 2 ^ f.exp

/-- Round the nonnegative rational `a / b` to `p` significant bits,
round-to-nearest-even: the `big.Float` obtained by rounding `a / b` at
mantissa precision `p`.  The mantissa window is `[2 ^ (p - 1), 2 ^ p)`,
positioned by `ratLog2`; the scaled value `a / b * 2 ^ k` is rounded to
the nearest integer, ties to even. -/
def rndF (p a b : Nat) : GoFloat :=
  let e := ratLog2 a b
  let k : Int := (p : Int) - 1 - e
  if 0 ≤ k then { mant := rndNearEven (a * 2 ^ k.toNat) b, exp := -k }
  else { mant := rndNearEven a (b * 2 ^ (-k).toNat), exp := -k }

/-- Model of `toDecimalUnit` (src/main.go:227-232).  Go code:
`decimalFactor := new(big.Int).Exp(big.NewInt(10), big.NewInt(int64(decimals)), nil)`
then `new(big.Float).Quo(new(big.Float).SetInt(wei), new(big.Float).SetInt(decimalFactor))`.
The two `SetInt` floats are exact with precisions `max(bitlen wei, 64)` and
`max(bitlen decimalFactor, 64)`; the fresh `Quo` target takes the larger of
the two precisions and rounds the exact quotient to nearest, ties to even. -/
def toDecimalUnit (wei : Nat) (decimals : Nat) : GoFloat :=
  let decimalFactor := 10 ^ decimals
  let prec := max (max (bitlen wei) 64) (max (bitlen decimalFactor) 64)
  rndF prec wei decimalFactor

/-- Three-way comparison of naturals, with Go `Cmp` result conventions. -/
def natCmp (m n : Nat) : Int :=
  if m < n then -1 else if m = n then 0 else 1

/-- Model of `big.Float.Cmp`: `-1`, `0` or `1` by comparison of the denoted
values, computed by bringing both mantissas to the smaller exponent. -/
def floatCmp (x y : GoFloat) : Int :=
  let d := x.exp - y.exp
  if 0 ≤ d then natCmp (x.mant * 2 ^ d.toNat) y.mant
  else natCmp x.mant (y.mant * 2 ^ (-d).toNat)

/-- Model of `exceedsBalanceThreshold` (src/main.go:235-237):
`balance.Cmp(threshold) == -1`. -/
def exceedsBalanceThreshold (balance threshold : GoFloat) : Bool :=
  floatCmp balance threshold == -1

/-- Value of a list of decimal digit characters, most significant first
(the scanning loop of Go number parsing). -/
def digitsVal (l : List Char) : Nat :=
  l.foldl (fun acc c => acc * 10 + (c.toNat - 48)) 0

/-- Checks that a character list is a nonempty block of decimal digits. -/
def allDigits (l : List Char) : Bool :=
  !l.isEmpty && l.all Char.isDigit

/-- Exact value of a plain decimal numeral string (the form the `threshold`
configuration field takes), as a numerator/denominator pair of naturals:
digits with at most one point, e.g. `"1.0"`, `"0.5"`, `"25"`.  Returns
`none` when the string is not of this form, in which case
`big.Float.SetString` also fails on the fragment of its syntax exercised by
the configuration (no sign, no exponent, no hex). -/
def parseDecString (s : String) : Option (Nat × Nat) :=
  let l := s.data
  let intPart := l.takeWhile (fun c => c ≠ '.')
  match l.dropWhile (fun c => c ≠ '.') with
  | [] => if allDigits intPart then some (digitsVal intPart, 1) else none
  | dot :: fracPart =>
    if dot = '.' && allDigits intPart && allDigits fracPart then
      some (digitsVal intPart * 10 ^ fracPart.length + digitsVal fracPart,
            10 ^ fracPart.length)
    else none

/-- Model of `new(big.Float).SetString(s)` on the threshold string
(src/main.go:93): the fresh float has precision 0, so it is changed to 64,
and the exact decimal value of the string is rounded to 64 significant
bits, nearest, ties to even.  `none` models `ok == false`. -/
def parseThreshold (s : String) : Option GoFloat :=
  (parseDecString s).map (fun p => rndF 64 p.1 p.2)

/-- One entry of the Cosmos bank balances JSON response
(`Balances` struct, src/main.go:53-56). -/
structure Balances where
  denom : String
  amount : String
deriving DecidableEq

/-- ASCII uppercase of a string as a character list: models Go
`strings.ToUpper` on the ASCII denom identifiers the tracker handles. -/
def toUpperChars (s : String) : List Char := s.data.map Char.toUpper

/-- Model of `strings.EqualFold(strings.ToUpper(a), strings.ToUpper(b))`
(src/main.go:189): composed with `ToUpper`, the case fold reduces to
equality of the uppercased strings. -/
def denomEqFold (a b : String) : Bool := toUpperChars a == toUpperChars b

/-- Go `big.Int.SetString(s, 10)` on the amount string: an optional sign
followed by at least one decimal digit; anything else fails. -/
def parseInt10 (s : String) : Option Int :=
  match s.data with
  | '+' :: ds => if allDigits ds then some ((digitsVal ds : Int)) else none
  | '-' :: ds => if allDigits ds then some (-(digitsVal ds : Int)) else none
  | ds => if allDigits ds then some ((digitsVal ds : Int)) else none

/-- Value held by `var bigIntNumber big.Int` after
`bigIntNumber.SetString(c.Amount, 10)` when the ok flag is discarded
(src/main.go:190-192).  Go's `setFromScanner` mutates the receiver before
the whole-string-consumed check: the scanner reads an optional sign and
then the longest run of decimal digits, so the variable keeps the signed
value of that digit prefix — `12` for `"12a"`, `1` for `"1.5"` — and `0`
exactly when no digit is scanned (e.g. a wholly non-numeric amount, where
the zero-initialised variable is left untouched).  On a fully valid
string this is the parsed value. -/
def goIntSetString10 (s : String) : Int :=
  match s.data with
  | '+' :: ds => ((digitsVal (ds.takeWhile Char.isDigit) : Nat) : Int)
  | '-' :: ds => -((digitsVal (ds.takeWhile Char.isDigit) : Nat) : Int)
  | ds => ((digitsVal (ds.takeWhile Char.isDigit) : Nat) : Int)

/-- Model of the denom-matching loop of `getCosmosBalance`
(src/main.go:166-196) after the HTTP GET and JSON unmarshal succeeded:
scan the entries in order; the first case-insensitive denom match returns
the amount parsed in base 10 with the ok flag discarded and a nil error;
no match returns the `"no balance found"` error (`none`), never zero. -/
def getCosmosBalance (balances : List Balances) (denom : String) : Option Int :=
  match balances with
  | [] => none
  | c :: rest =>
    if denomEqFold c.denom denom then some (goIntSetString10 c.amount)
    else getCosmosBalance rest denom

/-- Model of `strings.TrimPrefix(balanceHex, "0x")` (src/main.go:219):
one leading `"0x"` is removed, anything else left intact. -/
def trimPrefix0x (l : List Char) : List Char :=
  match l with
  | '0' :: 'x' :: rest => rest
  | _ => l

/-- Hexadecimal digit test, both cases (Go base-16 scanning). -/
def isHexDigit (c : Char) : Bool :=
  c.isDigit || ('a' ≤ c && c ≤ 'f') || ('A' ≤ c && c ≤ 'F')

/-- Value of one hexadecimal digit character. -/
def hexDigitVal (c : Char) : Nat :=
  if c.isDigit then c.toNat - 48
  else if 'a' ≤ c && c ≤ 'f' then c.toNat - 87
  else c.toNat - 55

/-- Value of a list of hexadecimal digits, most significant first. -/
def hexVal (l : List Char) : Nat :=
  l.foldl (fun acc c => acc * 16 + hexDigitVal c) 0

/-- Checks that a character list is a nonempty block of hex digits. -/
def allHexDigits (l : List Char) : Bool :=
  !l.isEmpty && l.all isHexDigit

/-- Syntax accepted by Go `big.Int.SetString(s, 16)`: an optional sign
followed by at least one hexadecimal digit. -/
def validHex16 (l : List Char) : Bool :=
  match l with
  | '+' :: ds => allHexDigits ds
  | '-' :: ds => allHexDigits ds
  | ds => allHexDigits ds

/-- Go `big.Int.SetString(s, 16)`: the signed base-16 value when the
string is valid, `none` (ok = false) otherwise. -/
def parseInt16 (l : List Char) : Option Int :=
  if validHex16 l then
    some (match l with
      | '+' :: ds => (hexVal ds : Int)
      | '-' :: ds => -(hexVal ds : Int)
      | ds => (hexVal ds : Int))
  else none

/-- Model of the response handling of `getETHBalance`
(src/main.go:208-225) once the RPC call produced the string `balanceHex`:
strip one `"0x"` prefix, parse base 16; `none` models the
`"failed to convert balance to big.Int"` error returned on `!success`. -/
def getETHBalance (balanceHex : String) : Option Int :=
  parseInt16 (trimPrefix0x balanceHex.data)

/-- A wallet of the configuration (`Wallet` struct, src/main.go:32-36). -/
structure Wallet where
  address : String
  name : String
  alert : Bool
deriving DecidableEq

/-- A network of the configuration (`NetworkConfig` struct,
src/main.go:38-47); `decimals` is a `uint8` in Go, here a natural. -/
structure NetworkConfig where
  type : String
  rpc : String
  explorer : String
  coin : String
  name : String
  decimals : Nat
  threshold : String
  wallets : List Wallet
deriving DecidableEq

/-- The configuration file content (`ChainConfig` struct,
src/main.go:49-51). -/
structure ChainConfig where
  chains : List NetworkConfig
deriving DecidableEq

/-- Result of `sendDiscordAlert` (src/main.go:261-279) once the webhook
POST itself succeeded with HTTP status `status`: `none` is a nil error,
`some msg` the `unexpected status code` error for any non-200 status. -/
def sendDiscordAlert (status : Nat) : Option String :=
  if status == 200 then none
  else some ("unexpected status code: " ++ toString status)

/-- Observable per-wallet events of the orchestrator loop
(src/main.go:106-121 and the identical icon/cosmos loops): a `printLine`
for each `fmt.Println(err)`, a `row` for each report line, and an
`alertPost` for each webhook POST made by `sendAlert`; the `delivery`
field records the result of `sendDiscordAlert`, which `sendAlert`
(src/main.go:240-243) discards without logging or returning it. -/
inductive Event where
  | printLine (msg : String)
  | row (address : String) (display : GoFloat) (raw : Nat)
  | alertPost (address : String) (delivery : Option String)
deriving DecidableEq

/-- Events produced for one wallet inside the per-network loop: a wallet
with the alert flag unset is skipped (`continue`), a fetch error is
printed and the wallet skipped, and a successful fetch prints a row and
POSTs an alert when the converted balance is below the threshold. -/
def walletEvents (fetch : String → Except String Nat) (status : Nat)
    (decimals : Nat) (threshold : GoFloat) (w : Wallet) : List Event :=
  if !w.alert then []
  else
    match fetch w.address with
    | .error msg => [.printLine msg]
    | .ok bal =>
      let disp := toDecimalUnit bal decimals
      .row w.address disp bal ::
        (if exceedsBalanceThreshold disp threshold then
          [.alertPost w.address (sendDiscordAlert status)]
        else [])

/-- The wallet loop of one network: sequential, one wallet at a time,
each wallet independent of the others. -/
def runWallets (fetch : String → Except String Nat) (status : Nat)
    (decimals : Nat) (threshold : GoFloat) : List Wallet → List Event
  | [] => []
  | w :: ws =>
    walletEvents fetch status decimals threshold w ++
      runWallets fetch status decimals threshold ws

/-- One network of the orchestrator (src/main.go:86-163): parse the
threshold string once (on failure print and `continue` to the next
network), then run the wallet loop.  The three chain types (`evm`,
`icon`, `cosmos`) share the loop body; the chain-specific balance fetch
is the abstract `fetch` argument. -/
def runNetwork (fetch : String → Except String Nat) (status : Nat)
    (nc : NetworkConfig) : List Event :=
  match parseThreshold nc.threshold with
  | none => [.printLine "Error parsing threshold value"]
  | some t => runWallets fetch status nc.decimals t nc.wallets

/-- Model of `main` (src/main.go:71-164): reading and unmarshalling the
config file is the `cfgLoad` argument; on failure `log.Fatal` terminates
the process (`Except.error`), otherwise every network is processed in
order and the run finishes normally with the concatenated events. -/
def mainRun (cfgLoad : Except String ChainConfig)
    (fetch : String → Except String Nat) (status : Nat) :
    Except String (List Event) :=
  match cfgLoad with
  | .error e => .error e
  | .ok cfg => .ok ((cfg.chains.map (runNetwork fetch status)).flatten)

/-- Addresses of the report rows (the wallets evaluated and displayed)
in an event list. -/
def rowAddresses (es : List Event) : List String :=
  es.filterMap (fun e => match e with
    | .row a _ _ => some a
    | _ => none)

/-- Console output of a run: `sendAlert` and `sendDiscordAlert` print and
log nothing (the POST result is discarded), so only `printLine` and `row`
events reach the console. -/
def printedEvents (es : List Event) : List Event :=
  es.filter (fun e => match e with
    | .alertPost _ _ => false
    | _ => true)

/-- Outcome of running a Go function: a normal return or a runtime
panic. -/
inductive GoExec (α : Type) where
  | ret (a : α)
  | panicked (msg : String)
deriving DecidableEq

/-- An HTTP response as far as the alert senders use it. -/
structure HttpResponse where
  statusCode : Nat
deriving DecidableEq

/-- Model of `sendTelegramAlert` (src/main.go:245-259).  Go code:
`res, err := http.Post(...)` is followed immediately by
`if res.StatusCode != http.StatusOK`, and `err` is only returned after
that check.  The `post` argument is the outcome of `http.Post`: on error
the response is `nil`, so the field access `res.StatusCode` dereferences
a nil pointer — a runtime panic.  (Marshalling of the fixed message
struct cannot fail and is omitted.) -/
def sendTelegramAlert (post : Except String HttpResponse) : GoExec (Option String) :=
  match post with
  | .error _ =>
    .panicked "runtime error: invalid memory address or nil pointer dereference"
  | .ok res =>
    if res.statusCode != 200 then
      .ret (some ("unexpected status code: " ++ toString res.statusCode))
    else .ret none

end BalanceTracker

namespace BalanceTracker

/-- A positive natural number has at least one bit. -/
theorem bitlen_pos {b : Nat} (hb : 1 ≤ b) : 1 ≤ bitlen b := by
  match b, hb with
  | n + 1, _ => simp [bitlen, bitlenAux]

/-- The mantissa window position never exceeds the bit length of the
numerator: `ratLog2 a b ≤ bitlen a - 1` whenever `b ≥ 1`. -/
theorem ratLog2_le (a b : Nat) (hb : 1 ≤ b) :
    ratLog2 a b ≤ (bitlen a : Int) - 1 := by
  have h := bitlen_pos hb
  simp only [ratLog2]
  split_ifs <;> omega

/-- Rounding a quotient of naturals that divides exactly returns the exact
quotient, provided the mantissa window reaches down to the units: no
rounding error occurs for these representable values. -/
theorem rndF_exact_of_dvd (p a b : Nat) (hb : 0 < b) (hdvd : b ∣ a)
    (he : ratLog2 a b ≤ (p : Int) - 1) :
    floatVal (rndF p a b) = ((a / b : Nat) : ℚ) := by
  obtain ⟨c, rfl⟩ := hdvd
  have hk : (0 : Int) ≤ (p : Int) - 1 - ratLog2 (b * c) b := by omega
  simp only [rndF]
  rw [if_pos hk]
  set t := ((p : Int) - 1 - ratLog2 (b * c) b).toNat with htdef
  have h1 : b * c * 2 ^ t = b * (c * 2 ^ t) := by ring
  simp only [rndNearEven]
  rw [h1, Nat.mul_mod_right, Nat.mul_div_cancel_left _ hb,
    Nat.mul_div_cancel_left _ hb]
  have h2 : 2 * 0 < b := by omega
  rw [if_pos h2]
  have h3 : ((p : Int) - 1 - ratLog2 (b * c) b) = (t : Int) := by
    rw [htdef, Int.toNat_of_nonneg hk]
  simp only [floatVal, h3]
  push_cast
  rw [zpow_neg, zpow_natCast]
  have h4 : ((2 : ℚ) ^ t) ≠ 0 := by positivity
  field_simp

/-- The three-way natural comparison returns `-1` exactly on strict `<`. -/
theorem natCmp_neg_iff (m n : Nat) : natCmp m n = -1 ↔ m < n := by
  unfold natCmp
  split_ifs with h1 h2
  · simp [h1]
  · subst h2; simp
  · simp
    omega

/-- A `GoFloat` value rewritten at any smaller exponent `E`: the mantissa
is scaled by the exponent difference. -/
theorem floatVal_cast (x : GoFloat) (E : Int) (h : E ≤ x.exp) :
    floatVal x = ((x.mant * 2 ^ (x.exp - E).toNat : ℕ) : ℚ) * 2 ^ E := by
  have hx : x.exp = E + ((x.exp - E).toNat : Int) := by omega
  calc (x.mant : ℚ) * 2 ^ x.exp
      = (x.mant : ℚ) * 2 ^ (E + ((x.exp - E).toNat : Int)) := by rw [← hx]
    _ = (x.mant : ℚ) * (2 ^ (((x.exp - E).toNat : Nat) : Int) * 2 ^ E) := by
        rw [zpow_add₀ (by norm_num : (2 : ℚ) ≠ 0)]; ring
    _ = ((x.mant * 2 ^ (x.exp - E).toNat : ℕ) : ℚ) * 2 ^ E := by
        push_cast [zpow_natCast]; ring

/-- The comparison primitive agrees with the denoted values: `floatCmp`
returns `-1` exactly when the first value is strictly smaller. -/
theorem floatCmp_lt_iff (x y : GoFloat) :
    floatCmp x y = -1 ↔ floatVal x < floatVal y := by
  have hpos : ∀ E : Int, (0 : ℚ) < 2 ^ E := fun E => zpow_pos (by norm_num) E
  by_cases hd : 0 ≤ x.exp - y.exp
  · have hx := floatVal_cast x y.exp (by omega)
    have hy := floatVal_cast y y.exp le_rfl
    simp only [floatCmp]
    rw [if_pos hd, natCmp_neg_iff, hx, hy]
    have h0 : (y.exp - y.exp).toNat = 0 := by simp
    rw [h0, pow_zero, mul_one, mul_lt_mul_right (hpos y.exp), Nat.cast_lt]
  · have hx := floatVal_cast x x.exp le_rfl
    have hy := floatVal_cast y x.exp (by omega)
    simp only [floatCmp]
    rw [if_neg hd, natCmp_neg_iff, hx, hy]
    have h0 : (x.exp - x.exp).toNat = 0 := by simp
    have h1 : (-(x.exp - y.exp)).toNat = (y.exp - x.exp).toNat := by omega
    rw [h0, pow_zero, mul_one, h1, mul_lt_mul_right (hpos x.exp), Nat.cast_lt]

/-- Claim C1 (amended): `toDecimalUnit(B, 0) = B` exactly for every `B`,
and `toDecimalUnit(B, D) * 10^D = B` whenever `10^D` divides `B`; in
general the result is the round-to-nearest-even binary value of
`B / 10^D` at precision `max(bitlen B, bitlen 10^D, 64)`, and for
non-representable quotients the product can differ from `B` (see the
counterexample). -/
theorem toDecimalUnit_exact (B D : Nat) :
    floatVal (toDecimalUnit B 0) = (B : ℚ) ∧
    (10 ^ D ∣ B → floatVal (toDecimalUnit B D) * 10 ^ D = (B : ℚ)) := by
  have key : ∀ d : Nat, 10 ^ d ∣ B →
      floatVal (toDecimalUnit B d) = ((B / 10 ^ d : Nat) : ℚ) := by
    intro d hdvd
    have hpos : 0 < 10 ^ d := Nat.pos_pow_of_pos d (by norm_num)
    have h1 : ratLog2 B (10 ^ d) ≤ (bitlen B : Int) - 1 := ratLog2_le _ _ hpos
    have h2 : bitlen B ≤ max (max (bitlen B) 64) (max (bitlen (10 ^ d)) 64) :=
      le_trans (le_max_left _ 64) (le_max_left _ _)
    simp only [toDecimalUnit]
    exact rndF_exact_of_dvd _ _ _ hpos hdvd (by omega)
  constructor
  · have h := key 0 (by simp)
    simpa using h
  · intro hdvd
    rw [key D hdvd]
    have h4 : B / 10 ^ D * 10 ^ D = B := Nat.div_mul_cancel hdvd
    calc ((B / 10 ^ D : Nat) : ℚ) * 10 ^ D
        = ((B / 10 ^ D * 10 ^ D : Nat) : ℚ) := by push_cast; ring
      _ = (B : ℚ) := by rw [h4]

/-- Witness for C1 (amended) at `B = 3000000`, `D = 6`
(a 6-decimals token with a whole-unit balance of 3). -/
theorem toDecimalUnit_exact_witness :
    floatVal (toDecimalUnit 3000000 0) = (3000000 : ℚ) ∧
    floatVal (toDecimalUnit 3000000 6) * 10 ^ 6 = (3000000 : ℚ) :=
  ⟨(toDecimalUnit_exact 3000000 6).1,
   (toDecimalUnit_exact 3000000 6).2 ⟨3, by norm_num⟩⟩

/-- Counterexample to claim C1 as stated: at `B = 1`, `D = 1` the code
computes the 64-bit round-to-nearest-even value of `1/10`, namely
`14757395258967641293 * 2^(-67) ≠ 1/10`, so `toDecimalUnit(1, 1) * 10^1`
is not `1`: the division terminates in decimal yet is lossy in the binary
`big.Float` arithmetic the code uses. -/
theorem toDecimalUnit_roundtrip_cex :
    ¬ (floatVal (toDecimalUnit 1 1) * 10 ^ 1 = (1 : ℚ)) := by
  have h : toDecimalUnit 1 1 = { mant := 14757395258967641293, exp := -67 } := by
    decide
  rw [h]
  simp only [floatVal]
  norm_num

/-- Claim C2 (amended): the comparison is carried out on `big.Float`
values — the balance at precision `max(bitlen B, bitlen 10^D, 64)`, the
threshold parsed from its configuration string at precision 64, never via
a machine `float64` — and the below-threshold decision agrees with the
exact rational comparison of `B / 10^D` against the exact decimal value
`num / den` of the threshold string whenever both rounded operands equal
their exact values.  (Near the boundary, rounding can merge distinct
values: see the counterexample.) -/
theorem threshold_comparison_agrees (B D : Nat) (s : String) (num den : Nat)
    (hparse : parseDecString s = some (num, den))
    (hB : floatVal (toDecimalUnit B D) = (B : ℚ) / 10 ^ D)
    (ht : floatVal (rndF 64 num den) = (num : ℚ) / (den : ℚ)) :
    parseThreshold s = some (rndF 64 num den) ∧
    (exceedsBalanceThreshold (toDecimalUnit B D) (rndF 64 num den) = true ↔
      (B : ℚ) / 10 ^ D < (num : ℚ) / (den : ℚ)) := by
  constructor
  · rw [parseThreshold, hparse]
    rfl
  · rw [exceedsBalanceThreshold, beq_iff_eq, floatCmp_lt_iff, hB, ht]

/-- Witness for C2 (amended) at the specification example: the 18-decimals
balance `500000000000000000` is exactly `0.5`, the threshold string
`"1.0"` parses exactly to `1`, and the alert decision fires (true) in
agreement with the exact comparison `0.5 < 1`. -/
theorem threshold_comparison_agrees_witness :
    parseThreshold "1.0" = some (rndF 64 10 10) ∧
    exceedsBalanceThreshold (toDecimalUnit 500000000000000000 18)
      (rndF 64 10 10) = true := by
  have hB : floatVal (toDecimalUnit 500000000000000000 18) =
      (500000000000000000 : ℚ) / 10 ^ 18 := by
    have h : toDecimalUnit 500000000000000000 18 =
        { mant := 9223372036854775808, exp := -64 } := by decide
    rw [h]
    simp only [floatVal]
    norm_num
  have ht : floatVal (rndF 64 10 10) = (10 : ℚ) / (10 : ℚ) := by
    have h : rndF 64 10 10 = { mant := 9223372036854775808, exp := -63 } := by
      decide
    rw [h]
    simp only [floatVal]
    norm_num
  have h := threshold_comparison_agrees 500000000000000000 18 "1.0" 10 10
    (by decide) hB ht
  exact ⟨h.1, h.2.mpr (by norm_num)⟩

/-- Counterexample to claim C2 as stated: for balance `B = 1` with one
decimal and threshold string `"0.1000000000000000000001"`, the exact
comparison says the balance `1/10` is strictly below the exact threshold
value `(10^21 + 1) / 10^22`, but both sides round to the same 64-bit
float, so the code's below-threshold decision is `false` — a false
negative at the boundary. -/
theorem threshold_comparison_cex :
    parseDecString "0.1000000000000000000001" = some (10 ^ 21 + 1, 10 ^ 22) ∧
    parseThreshold "0.1000000000000000000001" =
      some (rndF 64 (10 ^ 21 + 1) (10 ^ 22)) ∧
    (1 : ℚ) / 10 ^ 1 < ((10 ^ 21 + 1 : Nat) : ℚ) / ((10 ^ 22 : Nat) : ℚ) ∧
    exceedsBalanceThreshold (toDecimalUnit 1 1)
      (rndF 64 (10 ^ 21 + 1) (10 ^ 22)) = false := by
  refine ⟨by decide, by decide, ?_, by decide⟩
  push_cast
  norm_num

/-- Claim C3: the threshold comparison is strict less-than on the denoted
decimal values: it returns `true` exactly when the balance is strictly
below the threshold, and in particular equal values return `false`. -/
theorem exceedsBalanceThreshold_iff_lt (x y : GoFloat) :
    (exceedsBalanceThreshold x y = true ↔ floatVal x < floatVal y) ∧
    (floatVal x = floatVal y → exceedsBalanceThreshold x y = false) := by
  have h := floatCmp_lt_iff x y
  constructor
  · rw [exceedsBalanceThreshold, beq_iff_eq]
    exact h
  · intro hv
    rw [exceedsBalanceThreshold, beq_eq_false_iff_ne]
    intro hc
    have hlt := h.mp hc
    rw [hv] at hlt
    exact lt_irrefl _ hlt

/-- Witness for C3: value `1` against threshold `2` fires, value `1`
against itself does not. -/
theorem exceedsBalanceThreshold_iff_lt_witness :
    exceedsBalanceThreshold { mant := 1, exp := 0 } { mant := 2, exp := 0 } = true ∧
    exceedsBalanceThreshold { mant := 1, exp := 0 } { mant := 1, exp := 0 } = false := by
  constructor
  · exact (exceedsBalanceThreshold_iff_lt _ _).1.mpr (by norm_num [floatVal])
  · exact (exceedsBalanceThreshold_iff_lt _ _).2 rfl

/-- Claim C4: `getCosmosBalance` matches the query denom
case-insensitively against the response entries; it returns an error
(`none`) exactly when no entry matches — never zero — and on the first
match returns the amount parsed in base 10.  The specification examples
hold: querying `"UATOM"` against `{uatom, 2500000}` yields `2500000`,
querying `"uosmo"` yields the no-balance error. -/
theorem getCosmosBalance_denom_spec :
    (∀ (bs : List Balances) (q : String),
      (getCosmosBalance bs q).isNone =
        bs.all (fun c => !denomEqFold c.denom q)) ∧
    (∀ (q : String) (c : Balances) (bs : List Balances),
      getCosmosBalance (c :: bs) q =
        if denomEqFold c.denom q then some (goIntSetString10 c.amount)
        else getCosmosBalance bs q) ∧
    getCosmosBalance [{ denom := "uatom", amount := "2500000" }] "UATOM" =
      some 2500000 ∧
    getCosmosBalance [{ denom := "uatom", amount := "2500000" }] "uosmo" = none := by
  refine ⟨?_, fun q c bs => rfl, by decide, by decide⟩
  intro bs q
  induction bs with
  | nil => rfl
  | cons c rest ih =>
    by_cases h : denomEqFold c.denom q = true
    · simp [getCosmosBalance, h]
    · simp only [Bool.not_eq_true] at h
      simp [getCosmosBalance, h, ih]

/-- Claim C9 (amended): when the first matching entry carries an amount
that is not a valid base-10 integer, `getCosmosBalance` still returns a
nil error — the ok flag of `SetString` is discarded and no parse error is
surfaced — together with the value the scanner left in the `big.Int`: the
signed longest scanned digit prefix of the amount, which is `0` for
amounts that scan no digit (e.g. wholly non-numeric ones) but not `0` in
general. -/
theorem getCosmosBalance_invalid_amount (q : String) (c : Balances)
    (bs : List Balances) (hmatch : denomEqFold c.denom q = true)
    (hbad : parseInt10 c.amount = none) :
    getCosmosBalance (c :: bs) q = some (goIntSetString10 c.amount) := by
  simp [getCosmosBalance, hmatch]

/-- Witness for C9 (amended): a matching entry whose amount is `"abc"`
scans no digit and produces balance `0` with no error, while `"12a"`
produces the scanned prefix `12` with no error. -/
theorem getCosmosBalance_invalid_amount_witness :
    getCosmosBalance [{ denom := "uatom", amount := "abc" }] "uatom" = some 0 ∧
    getCosmosBalance [{ denom := "uatom", amount := "12a" }] "uatom" = some 12 := by
  constructor
  · have h := getCosmosBalance_invalid_amount "uatom"
      { denom := "uatom", amount := "abc" } [] (by decide) (by decide)
    rw [h]
    decide
  · have h := getCosmosBalance_invalid_amount "uatom"
      { denom := "uatom", amount := "12a" } [] (by decide) (by decide)
    rw [h]
    decide

/-- Counterexample to claim C9 as stated: `"12a"` is not a valid base-10
integer, yet the matching entry yields balance `12` — the partially
scanned prefix that Go's `SetString` leaves in the receiver — and not the
claimed `0` (the nil-error half of the claim does hold). -/
theorem getCosmosBalance_partial_scan_cex :
    parseInt10 "12a" = none ∧
    getCosmosBalance [{ denom := "uatom", amount := "12a" }] "uatom" = some 12 ∧
    ¬ (getCosmosBalance [{ denom := "uatom", amount := "12a" }] "uatom" =
        some 0) := by
  exact ⟨by decide, by decide, by decide⟩

/-- Claim C5: the EVM balance response is parsed as a base-16 integer
after stripping a `"0x"` prefix — `"0x1bc16d674ec80000"` parses to
`2000000000000000000` — and any string that is not valid hex after the
strip yields the parse error (`none`), not a balance. -/
theorem getETHBalance_hex_spec :
    getETHBalance "0x1bc16d674ec80000" = some 2000000000000000000 ∧
    (∀ s : String,
      (getETHBalance s).isNone = !validHex16 (trimPrefix0x s.data)) ∧
    getETHBalance "0xzz42" = none := by
  refine ⟨by decide, ?_, by decide⟩
  intro s
  unfold getETHBalance parseInt16
  by_cases h : validHex16 (trimPrefix0x s.data) = true
  · rw [if_pos h, h]
    rfl
  · simp only [Bool.not_eq_true] at h
    rw [if_neg (by simp [h]), h]
    rfl

/-- Claim C6: exactly the wallets whose alert flag is set are evaluated:
a wallet with the flag unset contributes nothing to the run (skipped
entirely), and when the fetches succeed the report rows are precisely the
alert-enabled wallets, in order. -/
theorem alert_flag_gates_evaluation :
    (∀ fetch status decimals threshold (w : Wallet) ws, w.alert = false →
      runWallets fetch status decimals threshold (w :: ws) =
        runWallets fetch status decimals threshold ws) ∧
    (∀ fetch status decimals threshold (ws : List Wallet),
      (∀ w ∈ ws, ∃ b, fetch w.address = .ok b) →
      rowAddresses (runWallets fetch status decimals threshold ws) =
        (ws.filter (fun w => w.alert)).map (fun w => w.address)) := by
  constructor
  · intro fetch status decimals threshold w ws hw
    simp [runWallets, walletEvents, hw]
  · intro fetch status decimals threshold ws h
    induction ws with
    | nil => rfl
    | cons w rest ih =>
      obtain ⟨b, hb⟩ := h w (List.mem_cons_self w rest)
      have ih2 := ih (fun x hx => h x (List.mem_cons_of_mem _ hx))
      have happ : ∀ l1 l2 : List Event,
          rowAddresses (l1 ++ l2) = rowAddresses l1 ++ rowAddresses l2 := by
        intro l1 l2
        simp only [rowAddresses]
        exact List.filterMap_append l1 l2 _
      cases ha : w.alert
      · simp [runWallets, happ, walletEvents, ha, ih2, List.filter_cons]
      · simp only [runWallets, happ, ih2, List.filter_cons, ha]
        simp only [walletEvents, ha, Bool.not_true, Bool.false_eq_true,
          if_false, hb]
        split <;> simp [rowAddresses]

/-- Witness for C6 at the specification example: three wallets, the
middle one with alerts disabled — exactly the other two are evaluated,
and the disabled wallet is skipped entirely. -/
theorem alert_flag_gates_evaluation_witness :
    rowAddresses (runWallets (fun _ => .ok 5) 200 6 { mant := 1, exp := 0 }
      [{ address := "a1", name := "w1", alert := true },
       { address := "a2", name := "w2", alert := false },
       { address := "a3", name := "w3", alert := true }]) = ["a1", "a3"] ∧
    runWallets (fun _ => .ok 5) 200 6 { mant := 1, exp := 0 }
      [{ address := "a2", name := "w2", alert := false }] =
      runWallets (fun _ => .ok 5) 200 6 { mant := 1, exp := 0 } [] := by
  constructor
  · rw [(alert_flag_gates_evaluation).2 (fun _ => .ok 5) 200 6
      { mant := 1, exp := 0 } _ (fun w hw => ⟨5, rfl⟩)]
    rfl
  · exact (alert_flag_gates_evaluation).1 (fun _ => .ok 5) 200 6
      { mant := 1, exp := 0 } { address := "a2", name := "w2", alert := false }
      [] rfl

/-- Claim C7: a per-wallet fetch error is printed and the loop continues
with the remaining wallets; the run as a whole always completes for any
parsed configuration, and only a failed config load (`log.Fatal`)
terminates the process. -/
theorem per_wallet_errors_nonfatal :
    (∀ (e : String) fetch status, mainRun (.error e) fetch status = .error e) ∧
    (∀ (cfg : ChainConfig) fetch status,
      ∃ es, mainRun (.ok cfg) fetch status = .ok es) ∧
    (∀ fetch status decimals threshold (w : Wallet) ws msg,
      w.alert = true → fetch w.address = .error msg →
      runWallets fetch status decimals threshold (w :: ws) =
        .printLine msg :: runWallets fetch status decimals threshold ws) := by
  refine ⟨fun e f st => rfl, fun cfg f st => ⟨_, rfl⟩, ?_⟩
  intro fetch status decimals threshold w ws msg ha herr
  simp [runWallets, walletEvents, ha, herr]

/-- Witness for C7: a failed config load surfaces as the fatal error, and
a one-wallet network whose fetch fails logs the message and leaves the
rest of the run intact. -/
theorem per_wallet_errors_nonfatal_witness :
    mainRun (.error "open wallets.json: no such file")
      (fun _ => .ok 1) 200 = .error "open wallets.json: no such file" ∧
    runWallets (fun _ => .error "connection refused") 200 18
      { mant := 1, exp := 0 }
      [{ address := "a1", name := "w1", alert := true }] =
      [.printLine "connection refused"] := by
  constructor
  · exact (per_wallet_errors_nonfatal).1 _ _ _
  · have h := (per_wallet_errors_nonfatal).2.2
      (fun _ => .error "connection refused") 200 18 { mant := 1, exp := 0 }
      { address := "a1", name := "w1", alert := true } [] "connection refused"
      rfl rfl
    exact h

/-- Claim C8 (amended): any non-200 HTTP status of the webhook POST makes
`sendDiscordAlert` return a delivery-failure error, and delivery failures
never abort the run — the wallet loop decomposes wallet by wallet, so all
remaining wallets are still processed — but the orchestrator discards the
error without logging it: no alert-delivery outcome ever reaches the
console output. -/
theorem delivery_failure_nonabort :
    (∀ status : Nat, status ≠ 200 →
      sendDiscordAlert status =
        some ("unexpected status code: " ++ toString status)) ∧
    (∀ fetch status decimals threshold (w : Wallet) ws,
      runWallets fetch status decimals threshold (w :: ws) =
        walletEvents fetch status decimals threshold w ++
          runWallets fetch status decimals threshold ws) ∧
    (∀ (es : List Event) (addr : String) (deliv : Option String),
      Event.alertPost addr deliv ∉ printedEvents es) := by
  refine ⟨?_, fun fetch status decimals threshold w ws => rfl, ?_⟩
  · intro status h
    simp [sendDiscordAlert, h]
  · intro es addr deliv
    simp [printedEvents, List.mem_filter]

/-- Witness for C8 (amended): status 500 is a delivery failure, and the
loop on two wallets decomposes into the first wallet's events followed by
the untouched processing of the second. -/
theorem delivery_failure_nonabort_witness :
    sendDiscordAlert 500 = some "unexpected status code: 500" ∧
    runWallets (fun _ => .ok 1) 500 0 { mant := 5, exp := 0 }
      [{ address := "a1", name := "w1", alert := true },
       { address := "a2", name := "w2", alert := true }] =
      walletEvents (fun _ => .ok 1) 500 0 { mant := 5, exp := 0 }
        { address := "a1", name := "w1", alert := true } ++
        runWallets (fun _ => .ok 1) 500 0 { mant := 5, exp := 0 }
          [{ address := "a2", name := "w2", alert := true }] := by
  constructor
  · exact (delivery_failure_nonabort).1 500 (by decide)
  · exact (delivery_failure_nonabort).2.1 (fun _ => .ok 1) 500 0
      { mant := 5, exp := 0 } { address := "a1", name := "w1", alert := true }
      [{ address := "a2", name := "w2", alert := true }]

/-- Counterexample to claim C8 as stated: a two-wallet run with the
webhook answering 500 produces two failed deliveries (recorded in the
`alertPost` events whose results the code discards), yet the console
output contains only the two report rows — no delivery failure is logged
anywhere — while the run does continue to completion (the second wallet
is fully processed after the first failed delivery). -/
theorem delivery_failure_unlogged_cex :
    runWallets (fun _ => Except.ok 1) 500 0 { mant := 5, exp := 0 }
      [{ address := "a1", name := "w1", alert := true },
       { address := "a2", name := "w2", alert := true }] =
      [Event.row "a1" { mant := 9223372036854775808, exp := -63 } 1,
       Event.alertPost "a1" (some "unexpected status code: 500"),
       Event.row "a2" { mant := 9223372036854775808, exp := -63 } 1,
       Event.alertPost "a2" (some "unexpected status code: 500")] ∧
    printedEvents (runWallets (fun _ => Except.ok 1) 500 0
      { mant := 5, exp := 0 }
      [{ address := "a1", name := "w1", alert := true },
       { address := "a2", name := "w2", alert := true }]) =
      [Event.row "a1" { mant := 9223372036854775808, exp := -63 } 1,
       Event.row "a2" { mant := 9223372036854775808, exp := -63 } 1] := by
  exact ⟨by decide, by decide⟩

/-- Claim C10: `sendTelegramAlert` reads `res.StatusCode` before checking
the error of `http.Post`: whenever the POST fails (nil response), the
function hits the nil-pointer dereference and panics instead of returning
the error; only when the POST itself succeeds does it return normally
(nil for status 200, the status error otherwise). -/
theorem sendTelegramAlert_nil_deref :
    (∀ e : String, sendTelegramAlert (.error e) =
      .panicked "runtime error: invalid memory address or nil pointer dereference") ∧
    sendTelegramAlert (.ok { statusCode := 200 }) = .ret none ∧
    sendTelegramAlert (.ok { statusCode := 500 }) =
      .ret (some "unexpected status code: 500") := by
  exact ⟨fun e => rfl, rfl, by decide⟩

end BalanceTracker
